import Mathlib

/-!
A shallow embedding of src/run_simulation.py and a verification of the
specification claims about it.

Embedding conventions.  Floating point arithmetic is embedded as exact real
arithmetic.  The numpy standard normal stream is embedded as an abstract
pseudo random generator prng : seed to index to real; np.random.seed
selects the stream, and draws are consumed in program order: for scenario s
(zero based) the draw at position s * (P + 1) is the systemic factor Y and
the following P positions are the idiosyncratic factors Z.  scipy norm.ppf
is embedded as a genuine inverse of the standard normal cumulative
distribution function, valued in the extended reals so that the arguments
0 and 1 give the bottom and top elements, matching the minus and plus
infinity scipy returns there.  The multiprocessing queue is embedded as
the list of values put on it, in FIFO order (the bounded capacity only
causes blocking, which does not change the sequence of values); the
sqlite store is embedded as the list of committed rows, one committed
batch being appended atomically (a rolled back batch contributes
nothing).  The json threshold source is embedded as a list of year
records, each carrying the year and a total map from rating names to
percentage probabilities.
-/

namespace CreditSim

open MeasureTheory Set Filter

/-- Simulation parameter ECONOMIC_SCENARIOS of the source (line 11). -/
def ECONOMIC_SCENARIOS : ℕ := 10000000

/-- Simulation parameter PORTFOLIO_SIZE of the source (line 12). -/
def PORTFOLIO_SIZE : ℕ := 500

/-- The rating categories used by the simulation (line 17 of the source). -/
def RATES_OF_INTEREST : List String :=
  ["AA", "A", "BBB", "BB", "B", "CCCtoC", "inv_grad", "spec_grad"]

/-- Default asset correlation (line 19 of the source). -/
noncomputable def ASSET_CORRELATION : ℝ := 0.16

/-- Batch size for the producer queue (line 21 of the source). -/
def BATCH_SIZE : ℕ := 500

/-- The standard normal cumulative distribution function, written with an
interval integral from 0 so that continuity and limit lemmas apply
directly; the density is exp (-(1 / 2) t ^ 2) normalised by sqrt (2 pi). -/
noncomputable def stdNormalCDF (x : ℝ) : ℝ :=
  1 / 2 + (Real.sqrt (2 * Real.pi))⁻¹ * ∫ t in (0:ℝ)..x, Real.exp (-(1 / 2) * t ^ 2)

/-- Embedding of scipy norm.ppf, the inverse standard normal CDF: on (0, 1)
it is the inverse of stdNormalCDF, at or below 0 it is minus infinity and at
or above 1 it is plus infinity (scipy returns -inf and inf at 0 and 1; no
claim evaluates it outside [0, 1]). -/
noncomputable def normPpf (p : ℝ) : EReal :=
  if p ≤ 0 then ⊥ else if 1 ≤ p then ⊤
  else ((Function.invFun stdNormalCDF p : ℝ) : EReal)

/-- One entry of the json threshold source: a horizon year together with the
cumulative default probabilities, in percent, per rating name. -/
structure YearRecord where
  Year : Int
  rates : String → ℝ

/-- The scan of the source list performed by the loader loop (lines 132 to
138): the first record whose Year field equals the requested year, if any. -/
def findYear (y : Int) : List YearRecord → Option YearRecord
  | [] => none
  | r :: rs => if r.Year = y then some r else findYear y rs

/-- The per category value stored in parsed_ratings_list (line 137 of the
source): the probability divided by 100, its normPpf image, and the running
default counter. -/
structure CatState where
  pct : ℝ
  ppf : EReal
  default_count : ℕ

/-- Line 135 to 137 of the source: for each rating name of interest, divide
the stored percentage by 100, apply norm.ppf and start the counter at 0.
The python dict preserves insertion order, embedded as an ordered
association list. -/
noncomputable def parseRatings (r : YearRecord) : List (String × CatState) :=
  RATES_OF_INTEREST.map fun k =>
    (k, ⟨r.rates k / 100, normPpf (r.rates k / 100), 0⟩)

/-- The threshold loading block (lines 128 to 140): if some record matches
the requested year, parse it; otherwise the loop leaves
parsed_ratings_list empty and execution continues. -/
noncomputable def loadThresholds (y : Int) (src : List YearRecord) :
    List (String × CatState) :=
  match findYear y src with
  | none => []
  | some r => parseRatings r

/-- One row of simulation output, dict_to_que in the source (lines 162 to
172): the scenario id, the systemic factor, and one loss ratio per rating
category in threshold order. -/
structure ScenarioRecord where
  S_ID : ℕ
  Y : ℝ
  lossRatios : List (String × ℝ)

/-- The mutable state of simulate_losses_monte_carlo (lines 143 to 146),
together with the queue contents; chan records every value put on the
queue, in order, a batch as some and the sentinel as none. -/
structure SimState where
  parsed_ratings_list : List (String × CatState)
  data_to_que : List ScenarioRecord
  db_updated_x_times : ℕ
  sim_id : ℕ
  chan : List (Option (List ScenarioRecord))

/-- Lines 157 to 160 of the source: one obligor with asset value X tested
against every category threshold, incrementing the matching counters. -/
noncomputable def stepObligor (X : ℝ) (ps : List (String × CatState)) :
    List (String × CatState) :=
  ps.map fun p =>
    if (X : EReal) < p.2.ppf then
      (p.1, ⟨p.2.pct, p.2.ppf, p.2.default_count + 1⟩)
    else p

/-- Lines 153 to 160 of the source: the obligor loop of one scenario.  base
is the stream position of the scenario, Y its systemic factor; obligor j
draws Z at position base + 1 + j and has asset value
X = Y * rho1 + Z * rho2. -/
noncomputable def obligorLoop (g : ℕ → ℝ) (rho1 rho2 : ℝ) (P base : ℕ) (Y : ℝ)
    (ps : List (String × CatState)) : List (String × CatState) :=
  (List.range P).foldl
    (fun acc j => stepObligor (Y * rho1 + g (base + 1 + j) * rho2) acc) ps

/-- Lines 164 to 172 of the source: the per category loss ratio, 0 when the
counter is 0, otherwise default_count / PORTFOLIO_SIZE. -/
noncomputable def emitRatios (P : ℕ) (ps : List (String × CatState)) :
    List (String × ℝ) :=
  ps.map fun p =>
    (p.1, if p.2.default_count = 0 then 0 else (p.2.default_count : ℝ) / P)

/-- Line 173 of the source: every category counter is reset to zero. -/
def resetCounts (ps : List (String × CatState)) : List (String × CatState) :=
  ps.map fun p => (p.1, ⟨p.2.pct, p.2.ppf, 0⟩)

/-- Lines 151 to 181 of the source: one iteration of the scenario loop for
scenario index s (zero based).  The record is appended, sim_id is
incremented, and the batch is pushed when the incremented sim_id reaches
BATCH_SIZE * (db_updated_x_times + 1). -/
noncomputable def scenarioStep (g : ℕ → ℝ) (rho1 rho2 : ℝ) (P B : ℕ)
    (st : SimState) (s : ℕ) : SimState :=
  let base := s * (P + 1)
  let Y := g base
  let ps1 := obligorLoop g rho1 rho2 P base Y st.parsed_ratings_list
  let rcd : ScenarioRecord := ⟨st.sim_id, Y, emitRatios P ps1⟩
  let dq := st.data_to_que ++ [rcd]
  let sid1 := st.sim_id + 1
  if B * (st.db_updated_x_times + 1) ≤ sid1 then
    ⟨resetCounts ps1, [], st.db_updated_x_times + 1, sid1, st.chan ++ [some dq]⟩
  else
    ⟨resetCounts ps1, dq, st.db_updated_x_times, sid1, st.chan⟩

/-- The scenario loop (line 151 of the source) run for N scenarios. -/
noncomputable def runScenarios (g : ℕ → ℝ) (rho1 rho2 : ℝ) (P B N : ℕ)
    (st : SimState) : SimState :=
  (List.range N).foldl (scenarioStep g rho1 rho2 P B) st

/-- Lines 143 to 146 of the source: empty pending batch, no uploads yet,
sim_id starts at 1, nothing on the queue. -/
def initState (thr : List (String × CatState)) : SimState :=
  ⟨thr, [], 0, 1, []⟩

/-- Lines 151 to 185 of the source: run all scenarios, push the trailing
batch if it is non empty, then push the sentinel. -/
noncomputable def produceRun (g : ℕ → ℝ) (thr : List (String × CatState))
    (rho1 rho2 : ℝ) (N P B : ℕ) : SimState :=
  let st1 := runScenarios g rho1 rho2 P B N (initState thr)
  let st2 := if 0 < st1.data_to_que.length then
      { st1 with chan := st1.chan ++ [some st1.data_to_que] } else st1
  { st2 with chan := st2.chan ++ [none] }

/-- simulate_losses_monte_carlo (lines 124 to 185 of the source): load the
thresholds for the requested year, seed the generator with the fixed value
25 (line 147), precompute rho1 = sqrt rho and rho2 = sqrt (1 - rho)
(lines 148 and 149), and run the producer loop. -/
noncomputable def simulate_losses_monte_carlo (prng : ℕ → ℕ → ℝ)
    (yearForRates : Int) (src : List YearRecord)
    (asset_value_correlation : ℝ) (N P B : ℕ) : SimState :=
  let parsed := loadThresholds yearForRates src
  let g := prng 25
  let rho1 := Real.sqrt asset_value_correlation
  let rho2 := Real.sqrt (1 - asset_value_correlation)
  produceRun g parsed rho1 rho2 N P B

/-- data_consumer (lines 95 to 122 of the source) in the fault free case:
drain the queue in order, committing one batch per transaction, and stop at
the sentinel; the result is the list of committed rows in commit order. -/
def data_consumer : List (Option (List ScenarioRecord)) → List ScenarioRecord
  | [] => []
  | none :: _ => []
  | some b :: rest => b ++ data_consumer rest

/-- data_consumer with injected storage faults: err k is true when the
write of the k-th received batch raises sqlite3.Error.  On a fault the open
transaction is rolled back (lines 115 to 118), so the failed batch
contributes no rows, and the loop is left, so no later message is read;
previously committed batches stay in the store. -/
def data_consumer_faulty (err : ℕ → Bool) :
    ℕ → List (Option (List ScenarioRecord)) → List ScenarioRecord
  | _, [] => []
  | _, none :: _ => []
  | k, some b :: rest =>
    if err k then [] else b ++ data_consumer_faulty err (k + 1) rest

/-- The named parameters of the INSERT statement built by
create_sql_command (lines 68 to 78 of the source) are S_ID, Y and one
k_L_RATIO per rating name of interest.  A dict_to_que record always
carries S_ID and Y (structure fields here); executemany binds the per
category parameters from the loss ratio entries, so the bind succeeds
exactly when every rating name of interest has an entry in the record. -/
def bindsInsert (rcd : ScenarioRecord) : Bool :=
  RATES_OF_INTEREST.all fun k => (rcd.lossRatios.map Prod.fst).contains k

/-- data_consumer (lines 95 to 122 of the source) including the parameter
binding of the named-parameter INSERT: a batch whose records do not supply
every per category parameter makes executemany raise
sqlite3.ProgrammingError, a sqlite3.Error, so the open transaction is
rolled back (the batch contributes no row) and the loop is left; a batch
that binds is committed whole. -/
def data_consumer_binding :
    List (Option (List ScenarioRecord)) → List ScenarioRecord
  | [] => []
  | none :: _ => []
  | some b :: rest =>
    if b.all bindsInsert then b ++ data_consumer_binding rest else []

/-- The records the producer put on the queue, batches flattened in FIFO
order (what the consumer receives, before any write is attempted). -/
def emittedRecords (chan : List (Option (List ScenarioRecord))) :
    List ScenarioRecord :=
  (chan.filterMap id).flatten

/-- The number of obligors of one scenario whose asset value falls below
the threshold t: obligor j has asset value Y * rho1 + Z_j * rho2 with Z_j
drawn at stream position base + 1 + j. -/
noncomputable def countDefaults (g : ℕ → ℝ) (rho1 rho2 Y : ℝ) (base P : ℕ)
    (t : EReal) : ℕ :=
  ((List.range P).filter fun j =>
    decide (((Y * rho1 + g (base + 1 + j) * rho2 : ℝ) : EReal) < t)).length

/-- The loss ratio written for a category whose counter ends the scenario
at c: the explicit zero guard of lines 167 to 170 of the source. -/
noncomputable def lossRatioOf (c P : ℕ) : ℝ :=
  if c = 0 then 0 else (c : ℝ) / P

/-- The scenario record the producer emits for scenario index s (zero
based): id s + 1, the systemic draw at position s * (P + 1), and per
category the loss ratio of its default count, every category sharing the
same obligor draws. -/
noncomputable def recordFor (g : ℕ → ℝ) (thr : List (String × CatState))
    (rho1 rho2 : ℝ) (P s : ℕ) : ScenarioRecord :=
  ⟨s + 1, g (s * (P + 1)),
   thr.map fun p =>
     (p.1,
      lossRatioOf
        (countDefaults g rho1 rho2 (g (s * (P + 1))) (s * (P + 1)) P p.2.ppf)
        P)⟩

/-- The records of the n consecutive scenarios starting at index a. -/
noncomputable def recsFrom (g : ℕ → ℝ) (thr : List (String × CatState))
    (rho1 rho2 : ℝ) (P a n : ℕ) : List ScenarioRecord :=
  (List.range' a n).map (recordFor g thr rho1 rho2 P)

/-- The m-th batch the producer pushes inside the scenario loop (m counted
from 1): the push condition compares the post increment sim_id with
B * (pushes + 1), so the first batch holds the B - 1 first records and
every later one holds exactly B. -/
noncomputable def batchSpec (g : ℕ → ℝ) (thr : List (String × CatState))
    (rho1 rho2 : ℝ) (P B m : ℕ) : List ScenarioRecord :=
  if m ≤ 1 then recsFrom g thr rho1 rho2 P 0 (B - 1)
  else recsFrom g thr rho1 rho2 P ((m - 1) * B - 1) B

/-- The first u in-loop batches, in push order. -/
noncomputable def batchList (g : ℕ → ℝ) (thr : List (String × CatState))
    (rho1 rho2 : ℝ) (P B u : ℕ) : List (List ScenarioRecord) :=
  (List.range' 1 u).map (batchSpec g thr rho1 rho2 P B)

/-- The queue contents after u in-loop pushes. -/
noncomputable def chanSpec (g : ℕ → ℝ) (thr : List (String × CatState))
    (rho1 rho2 : ℝ) (P B u : ℕ) : List (Option (List ScenarioRecord)) :=
  (batchList g thr rho1 rho2 P B u).map some

/-- The loop invariant of the scenario loop after k scenarios: the parsed
ratings are unchanged (all counters back at zero), sim_id is k + 1, the
queue holds the batches pushed so far, and the pending batch holds the
records not yet pushed; db_updated_x_times together with the stated bounds
determines where the last push happened. -/
def Inv (g : ℕ → ℝ) (thr : List (String × CatState)) (rho1 rho2 : ℝ)
    (P B k : ℕ) (st : SimState) : Prop :=
  st.parsed_ratings_list = thr ∧ st.sim_id = k + 1 ∧
  st.chan = chanSpec g thr rho1 rho2 P B st.db_updated_x_times ∧
  ((st.db_updated_x_times = 0 ∧
      st.data_to_que = recsFrom g thr rho1 rho2 P 0 k ∧ k + 1 < B) ∨
   (1 ≤ st.db_updated_x_times ∧
      st.data_to_que = recsFrom g thr rho1 rho2 P
        (st.db_updated_x_times * B - 1) (k + 1 - st.db_updated_x_times * B) ∧
      st.db_updated_x_times * B ≤ k + 1 ∧
      k + 1 < (st.db_updated_x_times + 1) * B))

/-- Looking a key up in an association list built by pairing each key with
its image finds that image. -/
theorem lookup_map_self {β : Type} (f : String → β) (l : List String)
    (c : String) (hc : c ∈ l) :
    (l.map fun k => (k, f k)).lookup c = some (f c) := by
  induction l with
  | nil => cases hc
  | cons a l ih =>
    rcases List.mem_cons.mp hc with h | h
    · subst h; simp [List.lookup]
    · by_cases hac : a = c
      · subst hac; simp [List.lookup]
      · have hne : (c == a) = false :=
          beq_eq_false_iff_ne.mpr fun e => hac e.symm
        simpa [List.lookup, hne] using ih h

/-- Every counter in a freshly loaded threshold set is zero. -/
theorem default_count_loadThresholds {y : Int} {src : List YearRecord}
    {p : String × CatState} (hp : p ∈ loadThresholds y src) :
    p.2.default_count = 0 := by
  unfold loadThresholds at hp
  cases h : findYear y src with
  | none => rw [h] at hp; cases hp
  | some r =>
    rw [h] at hp
    unfold parseRatings at hp
    obtain ⟨k, _, rfl⟩ := List.mem_map.mp hp
    rfl

theorem length_recsFrom (g : ℕ → ℝ) (thr : List (String × CatState))
    (rho1 rho2 : ℝ) (P a n : ℕ) :
    (recsFrom g thr rho1 rho2 P a n).length = n := by
  simp [recsFrom]

theorem recsFrom_concat (g : ℕ → ℝ) (thr : List (String × CatState))
    (rho1 rho2 : ℝ) (P a n : ℕ) :
    recsFrom g thr rho1 rho2 P a n ++ [recordFor g thr rho1 rho2 P (a + n)] =
      recsFrom g thr rho1 rho2 P a (n + 1) := by
  simp [recsFrom, List.range'_concat]

theorem recsFrom_append (g : ℕ → ℝ) (thr : List (String × CatState))
    (rho1 rho2 : ℝ) (P a m n : ℕ) :
    recsFrom g thr rho1 rho2 P a m ++ recsFrom g thr rho1 rho2 P (a + m) n =
      recsFrom g thr rho1 rho2 P a (m + n) := by
  have h := List.range'_append a m n 1
  simp only [one_mul] at h
  unfold recsFrom
  rw [← List.map_append, h, Nat.add_comm n m]

/-- Draining an all-batch prefix of the queue commits its rows in order. -/
theorem data_consumer_map_some (bs : List (List ScenarioRecord))
    (rest : List (Option (List ScenarioRecord))) :
    data_consumer (bs.map some ++ rest) = bs.flatten ++ data_consumer rest := by
  induction bs with
  | nil => simp
  | cons b bs ih => simp [data_consumer, ih]

/-- The obligor loop acts on each category independently: it adds to each
counter the number of obligors of the scenario whose asset value lies below
that category's threshold. -/
theorem obligorLoop_eq (g : ℕ → ℝ) (rho1 rho2 Y : ℝ) (base : ℕ)
    (ps : List (String × CatState)) (P : ℕ) :
    obligorLoop g rho1 rho2 P base Y ps =
      ps.map fun p =>
        (p.1, ⟨p.2.pct, p.2.ppf,
          p.2.default_count + countDefaults g rho1 rho2 Y base P p.2.ppf⟩) := by
  induction P with
  | zero =>
    have hid : (fun p : String × CatState =>
        (p.1, CatState.mk p.2.pct p.2.ppf
          (p.2.default_count + countDefaults g rho1 rho2 Y base 0 p.2.ppf))) =
        id := by
      funext p; rfl
    simp [obligorLoop, hid]
  | succ P ih =>
    unfold obligorLoop at ih ⊢
    rw [List.range_succ, List.foldl_append, ih]
    simp only [List.foldl_cons, List.foldl_nil]
    unfold stepObligor
    rw [List.map_map]
    refine List.map_congr_left fun p _ => ?_
    by_cases h : ((Y * rho1 + g (base + 1 + P) * rho2 : ℝ) : EReal) < p.2.ppf
    · simp only [Function.comp, h, if_true]
      have hcnt : countDefaults g rho1 rho2 Y base (P + 1) p.2.ppf =
          countDefaults g rho1 rho2 Y base P p.2.ppf + 1 := by
        unfold countDefaults
        have hpa : (decide
            (((Y * rho1 + g (base + 1 + P) * rho2 : ℝ) : EReal) < p.2.ppf)) =
            true := decide_eq_true h
        rw [List.range_succ, List.filter_append, List.length_append]
        simp only [List.filter_cons, List.filter_nil, hpa, if_true,
          List.length_cons, List.length_nil]
      rw [hcnt, Nat.add_assoc]
    · simp only [Function.comp, h, if_false]
      have hcnt : countDefaults g rho1 rho2 Y base (P + 1) p.2.ppf =
          countDefaults g rho1 rho2 Y base P p.2.ppf := by
        unfold countDefaults
        have hpa : (decide
            (((Y * rho1 + g (base + 1 + P) * rho2 : ℝ) : EReal) < p.2.ppf)) =
            false := decide_eq_false h
        rw [List.range_succ, List.filter_append]
        simp only [List.filter_cons, List.filter_nil, hpa,
          Bool.false_eq_true, if_false, List.append_nil]
      rw [hcnt]

/-- Resetting the counters after the obligor loop restores the incoming
category list up to its counters. -/
theorem resetCounts_obligorLoop (g : ℕ → ℝ) (rho1 rho2 Y : ℝ) (base P : ℕ)
    (ps : List (String × CatState)) :
    resetCounts (obligorLoop g rho1 rho2 P base Y ps) = resetCounts ps := by
  rw [obligorLoop_eq]
  unfold resetCounts
  rw [List.map_map]
  rfl

/-- When every incoming counter is zero, resetting is the identity. -/
theorem resetCounts_eq_self {thr : List (String × CatState)}
    (hz : ∀ p ∈ thr, p.2.default_count = 0) : resetCounts thr = thr := by
  unfold resetCounts
  conv_rhs => rw [← List.map_id thr]
  refine List.map_congr_left fun p hp => ?_
  rw [← hz p hp]
  rfl

/-- With all counters starting at zero, the ratios emitted for one scenario
are the loss ratios of the per category default counts of that scenario. -/
theorem emitRatios_obligorLoop (g : ℕ → ℝ) (rho1 rho2 Y : ℝ) (base P : ℕ)
    {thr : List (String × CatState)}
    (hz : ∀ p ∈ thr, p.2.default_count = 0) :
    emitRatios P (obligorLoop g rho1 rho2 P base Y thr) =
      thr.map fun p =>
        (p.1, lossRatioOf (countDefaults g rho1 rho2 Y base P p.2.ppf) P) := by
  rw [obligorLoop_eq]
  unfold emitRatios
  rw [List.map_map]
  refine List.map_congr_left fun p hp => ?_
  simp only [Function.comp]
  rw [hz p hp]
  simp [lossRatioOf]

/-- One scenario step, with the let bindings of the definition expanded. -/
theorem scenarioStep_eq (g : ℕ → ℝ) (rho1 rho2 : ℝ) (P B : ℕ) (st : SimState)
    (s : ℕ) :
    scenarioStep g rho1 rho2 P B st s =
      if B * (st.db_updated_x_times + 1) ≤ st.sim_id + 1 then
        ⟨resetCounts (obligorLoop g rho1 rho2 P (s * (P + 1)) (g (s * (P + 1)))
            st.parsed_ratings_list), [],
          st.db_updated_x_times + 1, st.sim_id + 1,
          st.chan ++ [some (st.data_to_que ++
            [⟨st.sim_id, g (s * (P + 1)),
              emitRatios P (obligorLoop g rho1 rho2 P (s * (P + 1))
                (g (s * (P + 1))) st.parsed_ratings_list)⟩])]⟩
      else
        ⟨resetCounts (obligorLoop g rho1 rho2 P (s * (P + 1)) (g (s * (P + 1)))
            st.parsed_ratings_list),
          st.data_to_que ++
            [⟨st.sim_id, g (s * (P + 1)),
              emitRatios P (obligorLoop g rho1 rho2 P (s * (P + 1))
                (g (s * (P + 1))) st.parsed_ratings_list)⟩],
          st.db_updated_x_times, st.sim_id + 1, st.chan⟩ := rfl

theorem chanSpec_succ (g : ℕ → ℝ) (thr : List (String × CatState))
    (rho1 rho2 : ℝ) (P B u : ℕ) :
    chanSpec g thr rho1 rho2 P B (u + 1) =
      chanSpec g thr rho1 rho2 P B u ++
        [some (batchSpec g thr rho1 rho2 P B (u + 1))] := by
  unfold chanSpec batchList
  rw [List.range'_concat]
  simp [Nat.add_comm 1 u]

theorem runScenarios_succ (g : ℕ → ℝ) (rho1 rho2 : ℝ) (P B N : ℕ)
    (st : SimState) :
    runScenarios g rho1 rho2 P B (N + 1) st =
      scenarioStep g rho1 rho2 P B (runScenarios g rho1 rho2 P B N st) N := by
  unfold runScenarios
  rw [List.range_succ, List.foldl_append]
  simp

theorem Inv_init (g : ℕ → ℝ) (thr : List (String × CatState))
    (rho1 rho2 : ℝ) (P B : ℕ) (hB : 2 ≤ B) :
    Inv g thr rho1 rho2 P B 0 (initState thr) :=
  ⟨rfl, rfl, rfl, Or.inl ⟨rfl, rfl, by omega⟩⟩

/-- The loop invariant is preserved by one scenario step. -/
theorem Inv_step (g : ℕ → ℝ) (thr : List (String × CatState))
    (rho1 rho2 : ℝ) (P B : ℕ) (hB : 2 ≤ B)
    (hz : ∀ p ∈ thr, p.2.default_count = 0) (k : ℕ) (st : SimState)
    (h : Inv g thr rho1 rho2 P B k st) :
    Inv g thr rho1 rho2 P B (k + 1) (scenarioStep g rho1 rho2 P B st k) := by
  obtain ⟨hp, hs, hc, hcase⟩ := h
  have hps : resetCounts (obligorLoop g rho1 rho2 P (k * (P + 1))
      (g (k * (P + 1))) st.parsed_ratings_list) = thr := by
    rw [hp, resetCounts_obligorLoop, resetCounts_eq_self hz]
  have hrec : (⟨st.sim_id, g (k * (P + 1)),
      emitRatios P (obligorLoop g rho1 rho2 P (k * (P + 1)) (g (k * (P + 1)))
        st.parsed_ratings_list)⟩ : ScenarioRecord) =
      recordFor g thr rho1 rho2 P k := by
    rw [hp, hs, emitRatios_obligorLoop g rho1 rho2 (g (k * (P + 1)))
      (k * (P + 1)) P hz]
    rfl
  rw [scenarioStep_eq, hrec]
  rcases hcase with ⟨hu0, hdq, hklt⟩ | ⟨hu1, hdq, hlb, hub⟩
  · -- no push has happened yet
    have hcat : recsFrom g thr rho1 rho2 P 0 k ++
        [recordFor g thr rho1 rho2 P k] =
        recsFrom g thr rho1 rho2 P 0 (k + 1) := by
      have h0 := recsFrom_concat g thr rho1 rho2 P 0 k
      rwa [Nat.zero_add] at h0
    by_cases hpush : B * (st.db_updated_x_times + 1) ≤ st.sim_id + 1
    · rw [if_pos hpush]
      rw [hu0, hs] at hpush
      have hBk : B = k + 2 := by omega
      unfold Inv
      dsimp only
      rw [hu0, hs, hc, hu0, hdq, hcat]
      refine ⟨hps, rfl, ?_, Or.inr ⟨by omega, ?_, by omega, by omega⟩⟩
      · rw [chanSpec_succ]
        have hb1 : batchSpec g thr rho1 rho2 P B (0 + 1) =
            recsFrom g thr rho1 rho2 P 0 (B - 1) := by
          unfold batchSpec
          rw [if_pos (by omega)]
        rw [hb1, show B - 1 = k + 1 from by omega]
      · rw [show k + 1 + 1 - (0 + 1) * B = 0 from by omega]
        rfl
    · rw [if_neg hpush]
      rw [hu0, hs] at hpush
      unfold Inv
      dsimp only
      rw [hu0, hs, hc, hu0, hdq, hcat]
      exact ⟨hps, rfl, rfl, Or.inl ⟨rfl, rfl, by omega⟩⟩
  · -- at least one push has happened
    have e0 : B * (st.db_updated_x_times + 1) = st.db_updated_x_times * B + B := by
      ring
    have e1 : (st.db_updated_x_times + 1) * B = st.db_updated_x_times * B + B := by
      ring
    have e2 : (st.db_updated_x_times + 1 + 1) * B =
        st.db_updated_x_times * B + B + B := by ring
    have hB1 : 1 ≤ st.db_updated_x_times * B := by
      have h1 := Nat.mul_le_mul hu1 (le_refl B)
      omega
    have hk : st.db_updated_x_times * B - 1 +
        (k + 1 - st.db_updated_x_times * B) = k := by omega
    have hcat : recsFrom g thr rho1 rho2 P (st.db_updated_x_times * B - 1)
          (k + 1 - st.db_updated_x_times * B) ++
        [recordFor g thr rho1 rho2 P k] =
        recsFrom g thr rho1 rho2 P (st.db_updated_x_times * B - 1)
          (k + 1 - st.db_updated_x_times * B + 1) := by
      have h0 := recsFrom_concat g thr rho1 rho2 P
        (st.db_updated_x_times * B - 1) (k + 1 - st.db_updated_x_times * B)
      rwa [hk] at h0
    by_cases hpush : B * (st.db_updated_x_times + 1) ≤ st.sim_id + 1
    · rw [if_pos hpush]
      rw [hs] at hpush
      have hBk : k + 2 = (st.db_updated_x_times + 1) * B := by omega
      unfold Inv
      dsimp only
      rw [hs, hc, hdq, hcat]
      refine ⟨hps, rfl, ?_, Or.inr ⟨by omega, ?_, by omega, by omega⟩⟩
      · rw [chanSpec_succ]
        have hb1 : batchSpec g thr rho1 rho2 P B (st.db_updated_x_times + 1) =
            recsFrom g thr rho1 rho2 P (st.db_updated_x_times * B - 1) B := by
          unfold batchSpec
          rw [if_neg (by omega)]
          rw [Nat.add_sub_cancel]
        rw [hb1, show k + 1 - st.db_updated_x_times * B + 1 = B from by omega]
      · rw [show k + 1 + 1 - (st.db_updated_x_times + 1) * B = 0 from by omega]
        rfl
    · rw [if_neg hpush]
      rw [hs] at hpush
      unfold Inv
      dsimp only
      rw [hs, hc, hdq, hcat]
      refine ⟨hps, rfl, rfl, Or.inr ⟨hu1, ?_, by omega, by omega⟩⟩
      rw [show k + 1 - st.db_updated_x_times * B + 1 =
        k + 1 + 1 - st.db_updated_x_times * B from by omega]

/-- The loop invariant holds after any number of scenarios. -/
theorem Inv_runScenarios (g : ℕ → ℝ) (thr : List (String × CatState))
    (rho1 rho2 : ℝ) (P B : ℕ) (hB : 2 ≤ B)
    (hz : ∀ p ∈ thr, p.2.default_count = 0) (N : ℕ) :
    Inv g thr rho1 rho2 P B N (runScenarios g rho1 rho2 P B N (initState thr)) := by
  induction N with
  | zero => exact Inv_init g thr rho1 rho2 P B hB
  | succ N ih =>
    rw [runScenarios_succ]
    exact Inv_step g thr rho1 rho2 P B hB hz N _ ih

/-- Concatenating the first u in-loop batches yields the records of the
scenarios up to the last pushed one: all ids from 1 to u * B - 1. -/
theorem flatten_batchList (g : ℕ → ℝ) (thr : List (String × CatState))
    (rho1 rho2 : ℝ) (P B : ℕ) (hB : 2 ≤ B) :
    ∀ u, 1 ≤ u → (batchList g thr rho1 rho2 P B u).flatten =
      recsFrom g thr rho1 rho2 P 0 (u * B - 1) := by
  intro u
  induction u with
  | zero => intro h; exact absurd h (by omega)
  | succ u ih =>
    intro _
    by_cases hu : u = 0
    · subst hu
      have h1 : batchList g thr rho1 rho2 P B 1 =
          [batchSpec g thr rho1 rho2 P B 1] := by
        unfold batchList
        rfl
      rw [h1]
      have h2 : batchSpec g thr rho1 rho2 P B 1 =
          recsFrom g thr rho1 rho2 P 0 (B - 1) := by
        unfold batchSpec
        rw [if_pos (le_refl 1)]
      simp [h2, Nat.one_mul]
    · have hu1 : 1 ≤ u := by omega
      have hbl : batchList g thr rho1 rho2 P B (u + 1) =
          batchList g thr rho1 rho2 P B u ++
            [batchSpec g thr rho1 rho2 P B (u + 1)] := by
        unfold batchList
        rw [List.range'_concat]
        simp [Nat.add_comm 1 u]
      rw [hbl, List.flatten_append, ih hu1]
      have hbs : batchSpec g thr rho1 rho2 P B (u + 1) =
          recsFrom g thr rho1 rho2 P (u * B - 1) B := by
        unfold batchSpec
        rw [if_neg (by omega), Nat.add_sub_cancel]
      rw [hbs]
      have happ := recsFrom_append g thr rho1 rho2 P 0 (u * B - 1) B
      rw [Nat.zero_add] at happ
      simp only [List.flatten_cons, List.flatten_nil, List.append_nil]
      rw [happ]
      congr 1
      have e1 : (u + 1) * B = u * B + B := by ring
      have hle : B ≤ u * B := Nat.le_mul_of_pos_left B (by omega)
      omega

/-- The producer run, with its let bindings expanded and the structure
update pushed below the trailing-batch test. -/
theorem produceRun_eq (g : ℕ → ℝ) (thr : List (String × CatState))
    (rho1 rho2 : ℝ) (N P B : ℕ) :
    produceRun g thr rho1 rho2 N P B =
      if 0 < (runScenarios g rho1 rho2 P B N (initState thr)).data_to_que.length
      then
        ⟨(runScenarios g rho1 rho2 P B N (initState thr)).parsed_ratings_list,
         (runScenarios g rho1 rho2 P B N (initState thr)).data_to_que,
         (runScenarios g rho1 rho2 P B N (initState thr)).db_updated_x_times,
         (runScenarios g rho1 rho2 P B N (initState thr)).sim_id,
         (runScenarios g rho1 rho2 P B N (initState thr)).chan ++
           [some (runScenarios g rho1 rho2 P B N
             (initState thr)).data_to_que] ++ [none]⟩
      else
        ⟨(runScenarios g rho1 rho2 P B N (initState thr)).parsed_ratings_list,
         (runScenarios g rho1 rho2 P B N (initState thr)).data_to_que,
         (runScenarios g rho1 rho2 P B N (initState thr)).db_updated_x_times,
         (runScenarios g rho1 rho2 P B N (initState thr)).sim_id,
         (runScenarios g rho1 rho2 P B N (initState thr)).chan ++ [none]⟩ := by
  by_cases h : 0 <
      (runScenarios g rho1 rho2 P B N (initState thr)).data_to_que.length
  · simp only [produceRun, if_pos h]
  · simp only [produceRun, if_neg h]

/-- Draining the full queue of a producer run commits exactly the records
of scenarios 0 to N - 1, in order. -/
theorem data_consumer_produceRun (g : ℕ → ℝ) (thr : List (String × CatState))
    (rho1 rho2 : ℝ) (N P B : ℕ) (hB : 2 ≤ B)
    (hz : ∀ p ∈ thr, p.2.default_count = 0) :
    data_consumer (produceRun g thr rho1 rho2 N P B).chan =
      recsFrom g thr rho1 rho2 P 0 N := by
  obtain ⟨hp, hs, hc, hcase⟩ := Inv_runScenarios g thr rho1 rho2 P B hB hz N
  rw [produceRun_eq]
  have hdrain : ∀ rest, data_consumer
      (chanSpec g thr rho1 rho2 P B
        (runScenarios g rho1 rho2 P B N (initState thr)).db_updated_x_times ++
        rest) =
      (batchList g thr rho1 rho2 P B
        (runScenarios g rho1 rho2 P B N (initState thr)).db_updated_x_times).flatten
        ++ data_consumer rest := by
    intro rest
    unfold chanSpec
    exact data_consumer_map_some _ _
  rcases hcase with ⟨hu0, hdq, hklt⟩ | ⟨hu1, hdq, hlb, hub⟩
  · -- no push happened: every record is still pending
    rcases Nat.eq_zero_or_pos N with hN | hN
    · subst hN
      rw [if_neg (by rw [hdq]; simp [recsFrom])]
      dsimp only
      rw [hc, hdrain, hu0]
      have : batchList g thr rho1 rho2 P B 0 = [] := rfl
      rw [this]
      simp [data_consumer, recsFrom]
    · rw [if_pos (by rw [hdq, length_recsFrom]; omega)]
      dsimp only
      rw [hc, List.append_assoc, hdrain, hu0]
      have : batchList g thr rho1 rho2 P B 0 = [] := rfl
      rw [this, hdq]
      simp [data_consumer]
  · -- at least one push happened
    rcases Nat.eq_zero_or_pos (N + 1 -
        (runScenarios g rho1 rho2 P B N (initState thr)).db_updated_x_times * B)
      with hlen | hlen
    · rw [if_neg (by rw [hdq, length_recsFrom]; omega)]
      dsimp only
      rw [hc, hdrain, flatten_batchList g thr rho1 rho2 P B hB _ hu1]
      have hud : (runScenarios g rho1 rho2 P B N
          (initState thr)).db_updated_x_times * B - 1 = N := by omega
      rw [hud]
      simp [data_consumer]
    · rw [if_pos (by rw [hdq, length_recsFrom]; omega)]
      dsimp only
      rw [hc, List.append_assoc, hdrain,
        flatten_batchList g thr rho1 rho2 P B hB _ hu1, hdq]
      have hstep : data_consumer ([some (recsFrom g thr rho1 rho2 P
          ((runScenarios g rho1 rho2 P B N (initState thr)).db_updated_x_times *
            B - 1)
          (N + 1 - (runScenarios g rho1 rho2 P B N
            (initState thr)).db_updated_x_times * B))] ++ [none]) =
          recsFrom g thr rho1 rho2 P
            ((runScenarios g rho1 rho2 P B N
              (initState thr)).db_updated_x_times * B - 1)
            (N + 1 - (runScenarios g rho1 rho2 P B N
              (initState thr)).db_updated_x_times * B) := by
        simp [data_consumer]
      rw [hstep]
      have happ := recsFrom_append g thr rho1 rho2 P 0
        ((runScenarios g rho1 rho2 P B N (initState thr)).db_updated_x_times *
          B - 1)
        (N + 1 - (runScenarios g rho1 rho2 P B N
          (initState thr)).db_updated_x_times * B)
      rw [Nat.zero_add] at happ
      rw [happ]
      congr 1
      have hB1 : 1 ≤ (runScenarios g rho1 rho2 P B N
          (initState thr)).db_updated_x_times * B :=
        le_trans (by omega) (Nat.le_mul_of_pos_left B (by omega))
      omega

theorem length_batchSpec (g : ℕ → ℝ) (thr : List (String × CatState))
    (rho1 rho2 : ℝ) (P B m : ℕ) :
    (batchSpec g thr rho1 rho2 P B m).length = if m ≤ 1 then B - 1 else B := by
  by_cases hm : m ≤ 1 <;> simp [batchSpec, hm, length_recsFrom]

/-- The final queue always consists of the in-loop batches, then the
trailing batch when it is non empty, then the sentinel; the trailing batch
holds between 1 and B - 1 records. -/
theorem produceRun_shape (g : ℕ → ℝ) (thr : List (String × CatState))
    (rho1 rho2 : ℝ) (N P B : ℕ) (hB : 2 ≤ B)
    (hz : ∀ p ∈ thr, p.2.default_count = 0) :
    ∃ u tb, (produceRun g thr rho1 rho2 N P B).chan =
        chanSpec g thr rho1 rho2 P B u ++ tb.map some ++ [none] ∧
      (tb = [] ∨ ∃ b, tb = [b] ∧ 1 ≤ b.length ∧ b.length + 1 ≤ B) := by
  obtain ⟨hp, hs, hc, hcase⟩ := Inv_runScenarios g thr rho1 rho2 P B hB hz N
  rw [produceRun_eq]
  by_cases h : 0 <
      (runScenarios g rho1 rho2 P B N (initState thr)).data_to_que.length
  · rw [if_pos h]
    refine ⟨(runScenarios g rho1 rho2 P B N (initState thr)).db_updated_x_times,
      [(runScenarios g rho1 rho2 P B N (initState thr)).data_to_que],
      ?_, Or.inr ⟨_, rfl, h, ?_⟩⟩
    · dsimp only
      rw [hc]
      simp
    · rcases hcase with ⟨hu0, hdq, hklt⟩ | ⟨hu1, hdq, hlb, hub⟩
      · rw [hdq, length_recsFrom]
        omega
      · rw [hdq, length_recsFrom]
        have e1 : ((runScenarios g rho1 rho2 P B N
            (initState thr)).db_updated_x_times + 1) * B =
            (runScenarios g rho1 rho2 P B N
              (initState thr)).db_updated_x_times * B + B := by ring
        omega
  · rw [if_neg h]
    exact ⟨(runScenarios g rho1 rho2 P B N (initState thr)).db_updated_x_times,
      [], by dsimp only; rw [hc]; simp, Or.inl rfl⟩

theorem gauss_integrable :
    Integrable (fun t : ℝ => Real.exp (-(1 / 2) * t ^ 2)) :=
  integrable_exp_neg_mul_sq (by norm_num)

theorem gauss_intervalIntegrable (a b : ℝ) :
    IntervalIntegrable (fun t : ℝ => Real.exp (-(1 / 2) * t ^ 2)) volume a b :=
  gauss_integrable.intervalIntegrable

theorem sqrt_two_pi_pos : 0 < Real.sqrt (2 * Real.pi) :=
  Real.sqrt_pos.mpr (by positivity)

/-- The standard normal CDF is strictly increasing. -/
theorem stdNormalCDF_strictMono : StrictMono stdNormalCDF := by
  intro a b hab
  unfold stdNormalCDF
  have hsub : (∫ t in (0:ℝ)..b, Real.exp (-(1 / 2) * t ^ 2)) -
      ∫ t in (0:ℝ)..a, Real.exp (-(1 / 2) * t ^ 2) =
      ∫ t in a..b, Real.exp (-(1 / 2) * t ^ 2) :=
    intervalIntegral.integral_interval_sub_left
      (gauss_intervalIntegrable 0 b) (gauss_intervalIntegrable 0 a)
  have hpos : 0 < ∫ t in a..b, Real.exp (-(1 / 2) * t ^ 2) :=
    intervalIntegral.intervalIntegral_pos_of_pos
      (gauss_intervalIntegrable a b) (fun x => Real.exp_pos _) hab
  have h2 : 0 < (Real.sqrt (2 * Real.pi))⁻¹ := inv_pos.mpr sqrt_two_pi_pos
  nlinarith [hsub, hpos, h2]

theorem gauss_integral_Ioi :
    ∫ t in Ioi (0:ℝ), Real.exp (-(1 / 2) * t ^ 2) =
      Real.sqrt (2 * Real.pi) / 2 := by
  have h := integral_gaussian_Ioi (1 / 2)
  rw [show Real.pi / (1 / 2) = 2 * Real.pi from by ring] at h
  exact h

theorem gauss_integral_Iic :
    ∫ t in Iic (0:ℝ), Real.exp (-(1 / 2) * t ^ 2) =
      Real.sqrt (2 * Real.pi) / 2 := by
  have h := integral_comp_neg_Iic (0:ℝ)
    (fun t => Real.exp (-(1 / 2) * t ^ 2))
  simp only [neg_sq, neg_zero] at h
  rw [h, gauss_integral_Ioi]

theorem stdNormalCDF_tendsto_atTop : Tendsto stdNormalCDF atTop (nhds 1) := by
  have h1 : Tendsto (fun x => ∫ t in (0:ℝ)..x, Real.exp (-(1 / 2) * t ^ 2))
      atTop (nhds (∫ t in Ioi (0:ℝ), Real.exp (-(1 / 2) * t ^ 2))) :=
    intervalIntegral_tendsto_integral_Ioi 0
      gauss_integrable.integrableOn tendsto_id
  rw [gauss_integral_Ioi] at h1
  have h2 : Tendsto stdNormalCDF atTop
      (nhds (1 / 2 + (Real.sqrt (2 * Real.pi))⁻¹ *
        (Real.sqrt (2 * Real.pi) / 2))) := by
    unfold stdNormalCDF
    exact tendsto_const_nhds.add (h1.const_mul _)
  have h3 : 1 / 2 + (Real.sqrt (2 * Real.pi))⁻¹ *
      (Real.sqrt (2 * Real.pi) / 2) = 1 := by
    have hs : Real.sqrt (2 * Real.pi) ≠ 0 := ne_of_gt sqrt_two_pi_pos
    field_simp
  rwa [h3] at h2

theorem stdNormalCDF_tendsto_atBot : Tendsto stdNormalCDF atBot (nhds 0) := by
  have h1 : Tendsto (fun a => ∫ t in a..(0:ℝ), Real.exp (-(1 / 2) * t ^ 2))
      atBot (nhds (∫ t in Iic (0:ℝ), Real.exp (-(1 / 2) * t ^ 2))) :=
    intervalIntegral_tendsto_integral_Iic 0
      gauss_integrable.integrableOn tendsto_id
  rw [gauss_integral_Iic] at h1
  have h4 : Tendsto (fun x : ℝ => 1 / 2 + (Real.sqrt (2 * Real.pi))⁻¹ *
      -∫ t in x..(0:ℝ), Real.exp (-(1 / 2) * t ^ 2)) atBot
      (nhds (1 / 2 + (Real.sqrt (2 * Real.pi))⁻¹ *
        -(Real.sqrt (2 * Real.pi) / 2))) :=
    tendsto_const_nhds.add ((h1.neg).const_mul _)
  have h5 : ∀ x : ℝ, 1 / 2 + (Real.sqrt (2 * Real.pi))⁻¹ *
      -∫ t in x..(0:ℝ), Real.exp (-(1 / 2) * t ^ 2) = stdNormalCDF x := by
    intro x
    unfold stdNormalCDF
    rw [intervalIntegral.integral_symm x 0]
  have h3 : 1 / 2 + (Real.sqrt (2 * Real.pi))⁻¹ *
      -(Real.sqrt (2 * Real.pi) / 2) = 0 := by
    have hs : Real.sqrt (2 * Real.pi) ≠ 0 := ne_of_gt sqrt_two_pi_pos
    field_simp
  rw [← h3]
  exact Tendsto.congr h5 h4

theorem stdNormalCDF_continuous : Continuous stdNormalCDF := by
  unfold stdNormalCDF
  exact continuous_const.add (continuous_const.mul
    (intervalIntegral.continuous_primitive
      (fun a b => gauss_intervalIntegrable a b) 0))

/-- Every probability strictly between 0 and 1 is attained by the standard
normal CDF. -/
theorem stdNormalCDF_exists_eq {p : ℝ} (hp0 : 0 < p) (hp1 : p < 1) :
    ∃ x, stdNormalCDF x = p := by
  obtain ⟨b, hb⟩ :=
    (stdNormalCDF_tendsto_atTop.eventually (eventually_gt_nhds hp1)).exists
  obtain ⟨a, ha⟩ :=
    (stdNormalCDF_tendsto_atBot.eventually (eventually_lt_nhds hp0)).exists
  have hab : a ≤ b := by
    by_contra hlt
    push_neg at hlt
    have hm := stdNormalCDF_strictMono hlt
    linarith
  obtain ⟨x, _, hx⟩ := intermediate_value_Icc hab
    stdNormalCDF_continuous.continuousOn ⟨ha.le, hb.le⟩
  exact ⟨x, hx⟩

/-- normPpf is strictly increasing on probabilities strictly between 0
and 1. -/
theorem normPpf_lt_normPpf {p1 p2 : ℝ} (h0 : 0 < p1) (h12 : p1 < p2)
    (h1 : p2 < 1) : normPpf p1 < normPpf p2 := by
  have h01 : p1 < 1 := lt_trans h12 h1
  have h02 : 0 < p2 := lt_trans h0 h12
  unfold normPpf
  rw [if_neg (not_le.mpr h0), if_neg (not_le.mpr h01),
    if_neg (not_le.mpr h02), if_neg (not_le.mpr h1)]
  rw [EReal.coe_lt_coe_iff]
  obtain ⟨x1, hx1⟩ := stdNormalCDF_exists_eq h0 h01
  obtain ⟨x2, hx2⟩ := stdNormalCDF_exists_eq h02 h1
  have e1 : stdNormalCDF (Function.invFun stdNormalCDF p1) = p1 :=
    Function.invFun_eq ⟨x1, hx1⟩
  have e2 : stdNormalCDF (Function.invFun stdNormalCDF p2) = p2 :=
    Function.invFun_eq ⟨x2, hx2⟩
  by_contra hle
  push_neg at hle
  have hmono := stdNormalCDF_strictMono.monotone hle
  rw [e1, e2] at hmono
  linarith

/-- normPpf pins the threshold to the probability: on (0, 1) the CDF of the
returned point recovers the argument. -/
theorem stdNormalCDF_normPpf {p : ℝ} (hp0 : 0 < p) (hp1 : p < 1) :
    ∃ x : ℝ, normPpf p = (x : EReal) ∧ stdNormalCDF x = p := by
  refine ⟨Function.invFun stdNormalCDF p, ?_, ?_⟩
  · unfold normPpf
    rw [if_neg (not_le.mpr hp0), if_neg (not_le.mpr hp1)]
  · exact Function.invFun_eq (stdNormalCDF_exists_eq hp0 hp1)

theorem normPpf_one : normPpf 1 = ⊤ := by
  unfold normPpf
  rw [if_neg (by norm_num), if_pos (le_refl 1)]

theorem normPpf_zero : normPpf 0 = ⊥ := by
  unfold normPpf
  rw [if_pos (le_refl 0)]

theorem countDefaults_top (g : ℕ → ℝ) (rho1 rho2 Y : ℝ) (base P : ℕ) :
    countDefaults g rho1 rho2 Y base P ⊤ = P := by
  unfold countDefaults
  have hall : ∀ j, j ∈ List.range P → (decide
      (((Y * rho1 + g (base + 1 + j) * rho2 : ℝ) : EReal) < ⊤)) = true :=
    fun j _ => decide_eq_true (EReal.coe_lt_top _)
  rw [List.filter_eq_self.mpr hall, List.length_range]

theorem countDefaults_bot (g : ℕ → ℝ) (rho1 rho2 Y : ℝ) (base P : ℕ) :
    countDefaults g rho1 rho2 Y base P ⊥ = 0 := by
  simp [countDefaults]

theorem countDefaults_le (g : ℕ → ℝ) (rho1 rho2 Y : ℝ) (base P : ℕ)
    (t : EReal) : countDefaults g rho1 rho2 Y base P t ≤ P := by
  have h := List.length_filter_le (fun j =>
    decide (((Y * rho1 + g (base + 1 + j) * rho2 : ℝ) : EReal) < t))
    (List.range P)
  simpa [countDefaults] using h

theorem lossRatioOf_eq_div (c P : ℕ) : lossRatioOf c P = (c : ℝ) / P := by
  by_cases h : c = 0 <;> simp [lossRatioOf, h]

theorem lossRatioOf_nonneg (c P : ℕ) : 0 ≤ lossRatioOf c P := by
  rw [lossRatioOf_eq_div]
  positivity

theorem lossRatioOf_le_one (c P : ℕ) (hc : c ≤ P) (hP : 0 < P) :
    lossRatioOf c P ≤ 1 := by
  rw [lossRatioOf_eq_div]
  rw [div_le_one (by exact_mod_cast hP)]
  exact_mod_cast hc

theorem lossRatioOf_eq_zero_iff (c P : ℕ) (hP : 0 < P) :
    lossRatioOf c P = 0 ↔ c = 0 := by
  constructor
  · intro h
    by_contra hc
    rw [lossRatioOf_eq_div] at h
    have hpos : 0 < (c : ℝ) / P := by
      apply div_pos
      · exact_mod_cast Nat.pos_of_ne_zero hc
      · exact_mod_cast hP
    linarith
  · intro h
    simp [lossRatioOf, h]

theorem lossRatioOf_self (P : ℕ) (hP : 0 < P) : lossRatioOf P P = 1 := by
  rw [lossRatioOf_eq_div]
  have h : (P : ℝ) ≠ 0 := ne_of_gt (by exact_mod_cast hP)
  exact div_self h

theorem getElem?_recsFrom (g : ℕ → ℝ) (thr : List (String × CatState))
    (rho1 rho2 : ℝ) (P a n s : ℕ) (hs : s < n) :
    (recsFrom g thr rho1 rho2 P a n)[s]? =
      some (recordFor g thr rho1 rho2 P (a + s)) := by
  unfold recsFrom
  rw [List.getElem?_map, List.getElem?_range' _ _ hs]
  simp

theorem map_SID_recsFrom (g : ℕ → ℝ) (thr : List (String × CatState))
    (rho1 rho2 : ℝ) (P N : ℕ) :
    (recsFrom g thr rho1 rho2 P 0 N).map ScenarioRecord.S_ID =
      List.range' 1 N := by
  unfold recsFrom
  rw [List.map_map]
  have h2 : (ScenarioRecord.S_ID ∘ recordFor g thr rho1 rho2 P) =
      fun s => s + 1 := rfl
  rw [h2]
  have h := List.map_add_range' 1 0 N 1
  simpa [Nat.add_comm] using h

/-- simulate_losses_monte_carlo is the producer loop run on the loaded
thresholds, with the stream seeded at the fixed value 25 and
rho1 = sqrt rho, rho2 = sqrt (1 - rho). -/
theorem simulate_eq (prng : ℕ → ℕ → ℝ) (y : Int) (src : List YearRecord)
    (ρ : ℝ) (N P B : ℕ) :
    simulate_losses_monte_carlo prng y src ρ N P B =
      produceRun (prng 25) (loadThresholds y src) (Real.sqrt ρ)
        (Real.sqrt (1 - ρ)) N P B := rfl

/-- The loader scan returns the first record of the requested year,
whatever follows it. -/
theorem findYear_append (y : Int) (r : YearRecord) (hr : r.Year = y) :
    ∀ (src1 src2 : List YearRecord), (∀ e ∈ src1, e.Year ≠ y) →
      findYear y (src1 ++ r :: src2) = some r := by
  intro src1
  induction src1 with
  | nil =>
    intro src2 _
    simp [findYear, hr]
  | cons e src1 ih =>
    intro src2 hnone
    have hne : ¬(e.Year = y) := hnone e (List.mem_cons_self e src1)
    simp only [List.cons_append, findYear, if_neg hne]
    exact ih src2 fun e2 he2 => hnone e2 (List.mem_cons_of_mem e he2)

/-- The faulty consumer, started at read counter k, on a queue whose first
failing batch is the j-th one read: everything before the failure commits,
nothing after it does, whatever follows on the queue. -/
theorem data_consumer_faulty_go (err : ℕ → Bool)
    (bs : List (List ScenarioRecord)) :
    ∀ (k j : ℕ) (rest : List (Option (List ScenarioRecord))),
      j < bs.length → err (k + j) = true → (∀ i, i < j → err (k + i) = false) →
      data_consumer_faulty err k (bs.map some ++ rest) =
        (bs.take j).flatten := by
  induction bs with
  | nil =>
    intro k j rest hj _ _
    simp at hj
  | cons b bs ih =>
    intro k j rest hj hfail hok
    cases j with
    | zero =>
      have h0 : err k = true := by simpa using hfail
      simp [data_consumer_faulty, h0]
    | succ j =>
      have h0 : err k = false := by simpa using hok 0 (Nat.succ_pos j)
      have hfail2 : err (k + 1 + j) = true := by
        rw [show k + 1 + j = k + (j + 1) from by omega]
        exact hfail
      have hok2 : ∀ i, i < j → err (k + 1 + i) = false := fun i hi => by
        rw [show k + 1 + i = k + (i + 1) from by omega]
        exact hok (i + 1) (by omega)
      have hrec := ih (k + 1) j rest (by simpa using hj) hfail2 hok2
      simp [data_consumer_faulty, h0, hrec]

/-- With no injected fault the faulty consumer is the plain consumer. -/
theorem data_consumer_faulty_no_fault :
    ∀ (l : List (Option (List ScenarioRecord))) (k : ℕ),
      data_consumer_faulty (fun _ => false) k l = data_consumer l := by
  intro l
  induction l with
  | nil => intro k; rfl
  | cons m rest ih =>
    intro k
    cases m with
    | none => rfl
    | some b => simp [data_consumer_faulty, data_consumer, ih]

/-- Flattening a sentinel terminated queue gives its batches in order. -/
theorem emittedRecords_map_some (bs : List (List ScenarioRecord)) :
    emittedRecords (bs.map some ++ [none]) = bs.flatten := by
  induction bs with
  | nil => rfl
  | cons b bs ih =>
    simp only [List.map_cons, List.cons_append]
    simp only [emittedRecords, List.filterMap_cons] at ih ⊢
    simp [ih]

/-- The producer emits exactly the records of scenarios 0 to N - 1 onto
the queue, in order. -/
theorem emittedRecords_produceRun (g : ℕ → ℝ)
    (thr : List (String × CatState)) (rho1 rho2 : ℝ) (N P B : ℕ)
    (hB : 2 ≤ B) (hz : ∀ p ∈ thr, p.2.default_count = 0) :
    emittedRecords (produceRun g thr rho1 rho2 N P B).chan =
      recsFrom g thr rho1 rho2 P 0 N := by
  obtain ⟨u, tb, hchan, htb⟩ := produceRun_shape g thr rho1 rho2 N P B hB hz
  have hchan2 : (produceRun g thr rho1 rho2 N P B).chan =
      (batchList g thr rho1 rho2 P B u ++ tb).map some ++ [none] := by
    rw [hchan]
    unfold chanSpec
    rw [List.map_append]
  have hd := data_consumer_produceRun g thr rho1 rho2 N P B hB hz
  rw [hchan2, data_consumer_map_some] at hd
  rw [hchan2, emittedRecords_map_some]
  simpa [data_consumer] using hd

/-- A record with no loss ratio entries leaves the per category insert
parameters unbound. -/
theorem bindsInsert_empty (rcd : ScenarioRecord)
    (h : rcd.lossRatios = []) : bindsInsert rcd = false := by
  unfold bindsInsert
  rw [h]
  rfl

/-- If every emitted record fails to bind, the write of the first received
batch raises, is rolled back, and nothing is ever committed. -/
theorem data_consumer_binding_all_fail (bs : List (List ScenarioRecord))
    (hne : ∀ b ∈ bs, b ≠ [])
    (hfail : ∀ rcd ∈ bs.flatten, bindsInsert rcd = false) :
    data_consumer_binding (bs.map some ++ [none]) = [] := by
  cases bs with
  | nil => rfl
  | cons b bs =>
    have hbne : b ≠ [] := hne b (List.mem_cons_self b bs)
    have hall : b.all bindsInsert = false := by
      cases hb : b with
      | nil => exact absurd hb hbne
      | cons r0 rest0 =>
        have h0 : bindsInsert r0 = false := by
          refine hfail r0 ?_
          rw [hb]
          simp
        simp [h0]
    show (if b.all bindsInsert then
      b ++ data_consumer_binding (bs.map some ++ [none]) else []) = []
    rw [hall]
    simp

/-- If every emitted record binds, the binding aware consumer commits
everything, like the plain consumer. -/
theorem data_consumer_binding_all_ok (bs : List (List ScenarioRecord))
    (h : ∀ rcd ∈ bs.flatten, bindsInsert rcd = true) :
    data_consumer_binding (bs.map some ++ [none]) = bs.flatten := by
  induction bs with
  | nil => rfl
  | cons b bs ih =>
    have hb : b.all bindsInsert = true := by
      rw [List.all_eq_true]
      intro x hx
      refine h x ?_
      simp [hx]
    have hrest := ih fun rcd hr => h rcd (by simp [hr])
    simp [data_consumer_binding, hb, hrest]

/-- Every record of a run whose year was found carries one loss ratio
entry per rating name of interest, so its insert parameters all bind. -/
theorem bindsInsert_recordFor (g : ℕ → ℝ) (r : YearRecord) (rho1 rho2 : ℝ)
    (P s : ℕ) :
    bindsInsert (recordFor g (parseRatings r) rho1 rho2 P s) = true := by
  unfold bindsInsert
  have hkeys : ((recordFor g (parseRatings r) rho1 rho2 P s).lossRatios.map
      Prod.fst) = RATES_OF_INTEREST := by
    unfold recordFor parseRatings
    rw [List.map_map, List.map_map]
    rfl
  rw [hkeys, List.all_eq_true]
  intro k hk
  simpa using hk

/-- On a run whose year was found, the binding aware consumer commits the
same rows as the plain consumer: all N records. -/
theorem data_consumer_binding_produceRun (g : ℕ → ℝ) (r : YearRecord)
    (rho1 rho2 : ℝ) (N P B : ℕ) (hB : 2 ≤ B) :
    data_consumer_binding
        (produceRun g (parseRatings r) rho1 rho2 N P B).chan =
      recsFrom g (parseRatings r) rho1 rho2 P 0 N := by
  have hz : ∀ p ∈ parseRatings r, p.2.default_count = 0 := by
    intro p hp
    obtain ⟨k, _, rfl⟩ := List.mem_map.mp hp
    rfl
  obtain ⟨u, tb, hchan, htb⟩ :=
    produceRun_shape g (parseRatings r) rho1 rho2 N P B hB hz
  have hchan2 : (produceRun g (parseRatings r) rho1 rho2 N P B).chan =
      (batchList g (parseRatings r) rho1 rho2 P B u ++ tb).map some ++
        [none] := by
    rw [hchan]
    unfold chanSpec
    rw [List.map_append]
  have hd := data_consumer_produceRun g (parseRatings r) rho1 rho2 N P B
    hB hz
  rw [hchan2, data_consumer_map_some] at hd
  simp only [data_consumer, List.append_nil] at hd
  rw [hchan2, data_consumer_binding_all_ok, hd]
  intro rcd hr
  rw [hd] at hr
  obtain ⟨s, _, rfl⟩ := List.mem_map.mp hr
  exact bindsInsert_recordFor g r rho1 rho2 P s

/-- Claim C1: for every scenario generated by simulate_losses_monte_carlo
and every rating category in the threshold set, the recorded loss ratio
equals default_count / portfolio_size, where default_count is the number of
the portfolio_size obligors whose asset value X = Y * sqrt(rho) +
Z * sqrt(1 - rho) satisfied X < threshold (one shared X draw tested against
all categories); hence the loss ratio equals k / portfolio_size for an
integer k between 0 and portfolio_size, lies in [0, 1], and is 0 exactly
when the default count is 0; every category counter is reset to zero before
the next scenario (the parsed ratings list is unchanged after every
scenario). -/
theorem claim_C1 (prng : ℕ → ℕ → ℝ) (y : Int) (src : List YearRecord)
    (ρ : ℝ) (N P B s : ℕ) (c : String) (cs : CatState) (cnt : ℕ)
    (hcnt : cnt = countDefaults (prng 25) (Real.sqrt ρ) (Real.sqrt (1 - ρ))
      (prng 25 (s * (P + 1))) (s * (P + 1)) P cs.ppf)
    (hB : 2 ≤ B) (hP : 0 < P) (hs : s < N)
    (hmem : (c, cs) ∈ loadThresholds y src) :
    (data_consumer (simulate_losses_monte_carlo prng y src ρ N P B).chan)[s]? =
        some (recordFor (prng 25) (loadThresholds y src) (Real.sqrt ρ)
          (Real.sqrt (1 - ρ)) P s) ∧
    (c, lossRatioOf cnt P) ∈ (recordFor (prng 25) (loadThresholds y src)
        (Real.sqrt ρ) (Real.sqrt (1 - ρ)) P s).lossRatios ∧
    lossRatioOf cnt P = (cnt : ℝ) / P ∧
    cnt ≤ P ∧
    0 ≤ lossRatioOf cnt P ∧ lossRatioOf cnt P ≤ 1 ∧
    (lossRatioOf cnt P = 0 ↔ cnt = 0) ∧
    ∀ k, (runScenarios (prng 25) (Real.sqrt ρ) (Real.sqrt (1 - ρ)) P B k
        (initState (loadThresholds y src))).parsed_ratings_list =
      loadThresholds y src := by
  subst hcnt
  have hz : ∀ p ∈ loadThresholds y src, p.2.default_count = 0 :=
    fun p hp => default_count_loadThresholds hp
  refine ⟨?_, ?_, lossRatioOf_eq_div _ _, countDefaults_le _ _ _ _ _ _ _,
    lossRatioOf_nonneg _ _,
    lossRatioOf_le_one _ _ (countDefaults_le _ _ _ _ _ _ _) hP,
    lossRatioOf_eq_zero_iff _ _ hP,
    fun k => (Inv_runScenarios _ _ _ _ _ _ hB hz k).1⟩
  · rw [simulate_eq, data_consumer_produceRun _ _ _ _ _ _ _ hB hz]
    have h := getElem?_recsFrom (prng 25) (loadThresholds y src)
      (Real.sqrt ρ) (Real.sqrt (1 - ρ)) P 0 N s hs
    rwa [Nat.zero_add] at h
  · unfold recordFor
    exact List.mem_map.mpr ⟨(c, cs), hmem, rfl⟩

/-- Witness for C1 at a concrete input (the default count bound for the
category AA of a one scenario, one obligor run). -/
theorem claim_C1_witness :
    countDefaults ((fun _ _ => (0:ℝ)) 25) (Real.sqrt 0) (Real.sqrt (1 - 0))
      ((fun _ _ => (0:ℝ)) 25 (0 * (1 + 1))) (0 * (1 + 1)) 1
      (CatState.mk ((0:ℝ) / 100) (normPpf ((0:ℝ) / 100)) 0).ppf ≤ 1 :=
  (claim_C1 (fun _ _ => 0) 1 [⟨1, fun _ => 0⟩] 0 1 1 2 0 "AA"
    ⟨(0:ℝ) / 100, normPpf ((0:ℝ) / 100), 0⟩ _ rfl (by norm_num) (by norm_num)
    (by norm_num)
    (by simp [loadThresholds, findYear, parseRatings,
      RATES_OF_INTEREST])).2.2.2.1

/-- Claim C3: scenario identifiers start at 1 and increase by one per
scenario; the persisted ids (the consumer output, which drains the batches
in FIFO order) are exactly 1, 2, ..., N in strictly increasing order. -/
theorem claim_C3 (prng : ℕ → ℕ → ℝ) (y : Int) (src : List YearRecord)
    (ρ : ℝ) (N P B : ℕ) (hB : 2 ≤ B) :
    (data_consumer (simulate_losses_monte_carlo prng y src ρ N P B).chan).map
      ScenarioRecord.S_ID = List.range' 1 N := by
  rw [simulate_eq, data_consumer_produceRun _ _ _ _ _ _ _ hB
    (fun p hp => default_count_loadThresholds hp), map_SID_recsFrom]

/-- Witness for C3: a three scenario run persists exactly the ids
1, 2, 3. -/
theorem claim_C3_witness :
    (data_consumer (simulate_losses_monte_carlo (fun _ _ => 0) 1 [] 0 3 1
      2).chan).map ScenarioRecord.S_ID = List.range' 1 3 :=
  claim_C3 (fun _ _ => 0) 1 [] 0 3 1 2 (by norm_num)

/-- Claim C4: two executions with identical run parameters (year,
correlation, scenario count, portfolio size, batch size) produce identical
final states, hence identical sequences of systemic factors Y and identical
loss ratios for every scenario and category; the generator is seeded with
the fixed value 25 at the start of every run. -/
theorem claim_C4 (prng : ℕ → ℕ → ℝ) (src : List YearRecord) (y1 y2 : Int)
    (ρ1 ρ2 : ℝ) (N1 N2 P1 P2 B1 B2 : ℕ) (hy : y1 = y2) (hρ : ρ1 = ρ2)
    (hN : N1 = N2) (hP : P1 = P2) (hB : B1 = B2) :
    simulate_losses_monte_carlo prng y1 src ρ1 N1 P1 B1 =
      simulate_losses_monte_carlo prng y2 src ρ2 N2 P2 B2 ∧
    (data_consumer (simulate_losses_monte_carlo prng y1 src ρ1 N1 P1
        B1).chan).map ScenarioRecord.Y =
      (data_consumer (simulate_losses_monte_carlo prng y2 src ρ2 N2 P2
        B2).chan).map ScenarioRecord.Y ∧
    (data_consumer (simulate_losses_monte_carlo prng y1 src ρ1 N1 P1
        B1).chan).map ScenarioRecord.lossRatios =
      (data_consumer (simulate_losses_monte_carlo prng y2 src ρ2 N2 P2
        B2).chan).map ScenarioRecord.lossRatios ∧
    simulate_losses_monte_carlo prng y1 src ρ1 N1 P1 B1 =
      produceRun (prng 25) (loadThresholds y1 src) (Real.sqrt ρ1)
        (Real.sqrt (1 - ρ1)) N1 P1 B1 := by
  subst hy hρ hN hP hB
  exact ⟨rfl, rfl, rfl, rfl⟩

/-- Witness for C4 at a concrete input. -/
theorem claim_C4_witness :
    simulate_losses_monte_carlo (fun _ _ => (0:ℝ)) 1 [] 0 1 1 2 =
      simulate_losses_monte_carlo (fun _ _ => (0:ℝ)) 1 [] 0 1 1 2 :=
  (claim_C4 (fun _ _ => 0) [] 1 1 0 0 1 1 1 1 2 2 rfl rfl rfl rfl rfl).1

/-- Claim C2: for every rating category the loaded threshold is
normPpf (stored percentage / 100), the genuine inverse of the standard
normal CDF on (0, 1) (the CDF of the threshold point recovers the
probability); and for two categories with probabilities strictly between 0
and 100 percent, the strictly higher probability yields the strictly
higher (less negative) threshold. -/
theorem claim_C2 (y : Int) (src : List YearRecord) (r : YearRecord)
    (c1 c2 : String) (hy : findYear y src = some r)
    (hc1 : c1 ∈ RATES_OF_INTEREST) (hc2 : c2 ∈ RATES_OF_INTEREST)
    (h0 : 0 < r.rates c1) (h12 : r.rates c1 < r.rates c2)
    (h100 : r.rates c2 < 100) :
    (loadThresholds y src).lookup c1 =
      some ⟨r.rates c1 / 100, normPpf (r.rates c1 / 100), 0⟩ ∧
    (loadThresholds y src).lookup c2 =
      some ⟨r.rates c2 / 100, normPpf (r.rates c2 / 100), 0⟩ ∧
    (∃ x1 : ℝ, normPpf (r.rates c1 / 100) = (x1 : EReal) ∧
      stdNormalCDF x1 = r.rates c1 / 100) ∧
    normPpf (r.rates c1 / 100) < normPpf (r.rates c2 / 100) := by
  have hp1a : 0 < r.rates c1 / 100 := div_pos h0 (by norm_num)
  have hp1b : r.rates c1 / 100 < 1 := by
    rw [div_lt_one (by norm_num)]
    linarith
  have hp2a : 0 < r.rates c2 / 100 :=
    div_pos (lt_trans h0 h12) (by norm_num)
  have hp2b : r.rates c2 / 100 < 1 := by
    rw [div_lt_one (by norm_num)]
    linarith
  have hload : loadThresholds y src = parseRatings r := by
    unfold loadThresholds
    rw [hy]
  refine ⟨?_, ?_, stdNormalCDF_normPpf hp1a hp1b, ?_⟩
  · rw [hload]
    exact lookup_map_self
      (fun k => (⟨r.rates k / 100, normPpf (r.rates k / 100), 0⟩ : CatState))
      RATES_OF_INTEREST c1 hc1
  · rw [hload]
    exact lookup_map_self
      (fun k => (⟨r.rates k / 100, normPpf (r.rates k / 100), 0⟩ : CatState))
      RATES_OF_INTEREST c2 hc2
  · exact normPpf_lt_normPpf hp1a (by linarith) hp2b

/-- Witness for C2: the AA and A thresholds of a concrete source with
probabilities 2 and 10 percent are strictly ordered. -/
theorem claim_C2_witness :
    normPpf ((YearRecord.mk 1 fun k => if k = "AA" then 2 else 10).rates
      "AA" / 100) <
    normPpf ((YearRecord.mk 1 fun k => if k = "AA" then 2 else 10).rates
      "A" / 100) :=
  (claim_C2 1 [⟨1, fun k => if k = "AA" then 2 else 10⟩]
    ⟨1, fun k => if k = "AA" then 2 else 10⟩ "AA" "A" rfl
    (by simp [RATES_OF_INTEREST]) (by simp [RATES_OF_INTEREST])
    (by rw [show (YearRecord.mk 1 fun k => if k = "AA" then (2:ℝ) else
      10).rates "AA" = if ("AA":String) = "AA" then (2:ℝ) else 10 from rfl,
      if_pos rfl]; norm_num)
    (by rw [show (YearRecord.mk 1 fun k => if k = "AA" then (2:ℝ) else
      10).rates "AA" = if ("AA":String) = "AA" then (2:ℝ) else 10 from rfl,
      show (YearRecord.mk 1 fun k => if k = "AA" then (2:ℝ) else
      10).rates "A" = if ("A":String) = "AA" then (2:ℝ) else 10 from rfl,
      if_pos rfl, if_neg (by simp : ¬("A":String) = "AA")]; norm_num)
    (by rw [show (YearRecord.mk 1 fun k => if k = "AA" then (2:ℝ) else
      10).rates "A" = if ("A":String) = "AA" then (2:ℝ) else 10 from rfl,
      if_neg (by simp : ¬("A":String) = "AA")]; norm_num)).2.2.2

/-- Claim C9: a stored probability of exactly 100 percent is accepted by
the loader (no rejection) and yields threshold plus infinity, so every
obligor defaults and the category loss ratio of every scenario is 1; a
stored probability of exactly 0 percent yields threshold minus infinity,
no obligor ever defaults, and the loss ratio is 0. -/
theorem claim_C9 (prng : ℕ → ℕ → ℝ) (y : Int) (src : List YearRecord)
    (ρ : ℝ) (N P B s : ℕ) (r : YearRecord) (c1 c2 : String)
    (hB : 2 ≤ B) (hP : 0 < P) (hs : s < N) (hy : findYear y src = some r)
    (hc1 : c1 ∈ RATES_OF_INTEREST) (hc2 : c2 ∈ RATES_OF_INTEREST)
    (h100 : r.rates c1 = 100) (h0 : r.rates c2 = 0) :
    (loadThresholds y src).lookup c1 = some ⟨1, ⊤, 0⟩ ∧
    (loadThresholds y src).lookup c2 = some ⟨0, ⊥, 0⟩ ∧
    (data_consumer (simulate_losses_monte_carlo prng y src ρ N P B).chan)[s]? =
      some (recordFor (prng 25) (loadThresholds y src) (Real.sqrt ρ)
        (Real.sqrt (1 - ρ)) P s) ∧
    (c1, (1:ℝ)) ∈ (recordFor (prng 25) (loadThresholds y src) (Real.sqrt ρ)
      (Real.sqrt (1 - ρ)) P s).lossRatios ∧
    (c2, (0:ℝ)) ∈ (recordFor (prng 25) (loadThresholds y src) (Real.sqrt ρ)
      (Real.sqrt (1 - ρ)) P s).lossRatios := by
  have hload : loadThresholds y src = parseRatings r := by
    unfold loadThresholds
    rw [hy]
  have hz : ∀ p ∈ loadThresholds y src, p.2.default_count = 0 :=
    fun p hp => default_count_loadThresholds hp
  have hmem1 : (c1, (⟨1, ⊤, 0⟩ : CatState)) ∈ loadThresholds y src := by
    rw [hload]
    unfold parseRatings
    refine List.mem_map.mpr ⟨c1, hc1, ?_⟩
    rw [h100]
    norm_num [normPpf_one]
  have hmem2 : (c2, (⟨0, ⊥, 0⟩ : CatState)) ∈ loadThresholds y src := by
    rw [hload]
    unfold parseRatings
    refine List.mem_map.mpr ⟨c2, hc2, ?_⟩
    rw [h0]
    norm_num [normPpf_zero]
  refine ⟨?_, ?_, ?_, ?_, ?_⟩
  · rw [hload]
    have h2 : List.lookup c1 (parseRatings r) =
        some ⟨r.rates c1 / 100, normPpf (r.rates c1 / 100), 0⟩ :=
      lookup_map_self
        (fun k => (⟨r.rates k / 100, normPpf (r.rates k / 100), 0⟩ : CatState))
        RATES_OF_INTEREST c1 hc1
    rw [h2, h100]
    norm_num [normPpf_one]
  · rw [hload]
    have h2 : List.lookup c2 (parseRatings r) =
        some ⟨r.rates c2 / 100, normPpf (r.rates c2 / 100), 0⟩ :=
      lookup_map_self
        (fun k => (⟨r.rates k / 100, normPpf (r.rates k / 100), 0⟩ : CatState))
        RATES_OF_INTEREST c2 hc2
    rw [h2, h0]
    norm_num [normPpf_zero]
  · rw [simulate_eq, data_consumer_produceRun _ _ _ _ _ _ _ hB hz]
    have h := getElem?_recsFrom (prng 25) (loadThresholds y src)
      (Real.sqrt ρ) (Real.sqrt (1 - ρ)) P 0 N s hs
    rwa [Nat.zero_add] at h
  · unfold recordFor
    refine List.mem_map.mpr ⟨(c1, ⟨1, ⊤, 0⟩), hmem1, ?_⟩
    rw [show ((c1, (⟨1, ⊤, 0⟩ : CatState)).2.ppf) = (⊤ : EReal) from rfl,
      countDefaults_top, lossRatioOf_self P hP]
  · unfold recordFor
    refine List.mem_map.mpr ⟨(c2, ⟨0, ⊥, 0⟩), hmem2, ?_⟩
    rw [show ((c2, (⟨0, ⊥, 0⟩ : CatState)).2.ppf) = (⊥ : EReal) from rfl,
      countDefaults_bot]
    rw [show lossRatioOf 0 P = 0 from rfl]

/-- Witness for C9: with AA stored at 100 percent its loaded threshold is
plus infinity. -/
theorem claim_C9_witness :
    (loadThresholds 1 [⟨1, fun k => if k = "AA" then 100 else 0⟩]).lookup
      "AA" = some ⟨1, ⊤, 0⟩ :=
  (claim_C9 (fun _ _ => 0) 1 [⟨1, fun k => if k = "AA" then 100 else 0⟩]
    0 1 1 2 0 ⟨1, fun k => if k = "AA" then 100 else 0⟩ "AA" "A"
    (by norm_num) (by norm_num) (by norm_num) rfl
    (by simp [RATES_OF_INTEREST]) (by simp [RATES_OF_INTEREST])
    (by simp) (by simp)).1

/-- Counterexample to claim C5 as stated: in a run of 4 scenarios with
batch size 2, the queue holds three batches of sizes 1, 2 and 1 before the
sentinel.  The first pushed batch is not the trailing one (two more batches
follow it), yet it holds 1 record, not batch_size = 2: the push fires when
the post increment sim_id reaches a multiple of the batch size, one record
early for the first batch. -/
theorem claim_C5_counterexample :
    ((simulate_losses_monte_carlo (fun _ _ => (0:ℝ)) 1 [] 0 4 1 2).chan).map
      (Option.map List.length) = [some 1, some 2, some 1, none] ∧
    (1 : ℕ) ≠ 2 := by
  constructor
  · rfl
  · decide

/-- Claim C5 amended: the producer pushes the current batch when the post
increment sim_id reaches B * (pushes + 1); consequently the in-loop batches
are exactly the batchSpec list (the first holding B - 1 records, every
later one exactly B), the trailing batch holds between 1 and B - 1 records
when present, and every pushed batch holds at most B records. -/
theorem claim_C5 (prng : ℕ → ℕ → ℝ) (y : Int) (src : List YearRecord)
    (ρ : ℝ) (N P B : ℕ) (hB : 2 ≤ B) :
    ∃ u tb,
      (simulate_losses_monte_carlo prng y src ρ N P B).chan =
        chanSpec (prng 25) (loadThresholds y src) (Real.sqrt ρ)
          (Real.sqrt (1 - ρ)) P B u ++ tb.map some ++ [none] ∧
      (tb = [] ∨ ∃ b, tb = [b] ∧ 1 ≤ b.length ∧ b.length + 1 ≤ B) ∧
      ∀ m, (batchSpec (prng 25) (loadThresholds y src) (Real.sqrt ρ)
        (Real.sqrt (1 - ρ)) P B m).length = if m ≤ 1 then B - 1 else B := by
  obtain ⟨u, tb, h1, h2⟩ := produceRun_shape (prng 25) (loadThresholds y src)
    (Real.sqrt ρ) (Real.sqrt (1 - ρ)) N P B hB
    (fun p hp => default_count_loadThresholds hp)
  exact ⟨u, tb, by rw [simulate_eq]; exact h1, h2,
    fun m => length_batchSpec _ _ _ _ _ _ m⟩

/-- Witness for the amended C5 at a concrete input. -/
theorem claim_C5_witness :
    ∃ u tb,
      (simulate_losses_monte_carlo (fun _ _ => (0:ℝ)) 1 [] 0 4 1 2).chan =
        chanSpec ((fun _ _ => (0:ℝ)) 25) (loadThresholds 1 []) (Real.sqrt 0)
          (Real.sqrt (1 - 0)) 1 2 u ++ tb.map some ++ [none] ∧
      (tb = [] ∨ ∃ b, tb = [b] ∧ 1 ≤ b.length ∧ b.length + 1 ≤ 2) ∧
      ∀ m, (batchSpec ((fun _ _ => (0:ℝ)) 25) (loadThresholds 1 [])
        (Real.sqrt 0) (Real.sqrt (1 - 0)) 1 2 m).length =
        if m ≤ 1 then 2 - 1 else 2 :=
  claim_C5 (fun _ _ => 0) 1 [] 0 4 1 2 (by norm_num)

/-- Counterexample to claim C6 as stated: with a threshold source that has
no entry for the requested year 3, the loader raises no error and returns
the empty mapping, and the producer still generates and emits both
scenarios of the run before any failure, contradicting an abort before any
scenario is generated.  The failure the run does hit is a storage one, not
a configuration one: the records carry no per category loss ratio, the
first batch write cannot bind the per category insert parameters, and the
consumer rolls back and stops with zero rows committed. -/
theorem claim_C6_counterexample :
    loadThresholds 3 [⟨1, fun _ => 50⟩] = [] ∧
    (emittedRecords (simulate_losses_monte_carlo (fun _ _ => (0:ℝ)) 3
      [⟨1, fun _ => 50⟩] 0 2 1 2).chan).length = 2 ∧
    data_consumer_binding (simulate_losses_monte_carlo (fun _ _ => (0:ℝ)) 3
      [⟨1, fun _ => 50⟩] 0 2 1 2).chan = [] := by
  refine ⟨rfl, rfl, rfl⟩

/-- Claim C6 amended: when the threshold source has no entry for the
requested year, the run does not abort before simulation: the loader
yields an empty threshold set and the producer generates and emits all N
scenario records, each carrying no per category loss ratio.  The consumer
then fails on its first write (the per category insert parameters cannot
be bound), rolls back and stops, so no row at all is persisted. -/
theorem claim_C6 (prng : ℕ → ℕ → ℝ) (y : Int) (src : List YearRecord)
    (ρ : ℝ) (N P B : ℕ) (hB : 2 ≤ B) (hnone : findYear y src = none) :
    loadThresholds y src = [] ∧
    (emittedRecords (simulate_losses_monte_carlo prng y src ρ N P
      B).chan).map ScenarioRecord.S_ID = List.range' 1 N ∧
    (∀ rcd ∈ emittedRecords (simulate_losses_monte_carlo prng y src ρ N P
      B).chan, rcd.lossRatios = []) ∧
    data_consumer_binding (simulate_losses_monte_carlo prng y src ρ N P
      B).chan = [] := by
  have hload : loadThresholds y src = [] := by
    unfold loadThresholds
    rw [hnone]
  have hz : ∀ p ∈ ([] : List (String × CatState)), p.2.default_count = 0 :=
    by intro p hp; cases hp
  have hemit : emittedRecords (simulate_losses_monte_carlo prng y src ρ N P
      B).chan = recsFrom (prng 25) [] (Real.sqrt ρ) (Real.sqrt (1 - ρ)) P
      0 N := by
    rw [simulate_eq, hload]
    exact emittedRecords_produceRun (prng 25) [] (Real.sqrt ρ)
      (Real.sqrt (1 - ρ)) N P B hB hz
  refine ⟨hload, ?_, ?_, ?_⟩
  · rw [hemit, map_SID_recsFrom]
  · intro rcd hr
    rw [hemit] at hr
    obtain ⟨s, _, rfl⟩ := List.mem_map.mp hr
    rfl
  · rw [simulate_eq, hload]
    obtain ⟨u, tb, hchan, htb⟩ := produceRun_shape (prng 25) []
      (Real.sqrt ρ) (Real.sqrt (1 - ρ)) N P B hB hz
    have hchan2 : (produceRun (prng 25) [] (Real.sqrt ρ)
        (Real.sqrt (1 - ρ)) N P B).chan =
        (batchList (prng 25) [] (Real.sqrt ρ) (Real.sqrt (1 - ρ)) P B u ++
          tb).map some ++ [none] := by
      rw [hchan]
      unfold chanSpec
      rw [List.map_append]
    have hflat : (batchList (prng 25) [] (Real.sqrt ρ) (Real.sqrt (1 - ρ))
        P B u ++ tb).flatten =
        recsFrom (prng 25) [] (Real.sqrt ρ) (Real.sqrt (1 - ρ)) P 0 N := by
      have hd := data_consumer_produceRun (prng 25) [] (Real.sqrt ρ)
        (Real.sqrt (1 - ρ)) N P B hB hz
      rw [hchan2, data_consumer_map_some] at hd
      simpa [data_consumer] using hd
    rw [hchan2]
    refine data_consumer_binding_all_fail _ ?_ ?_
    · intro b hb
      rcases List.mem_append.mp hb with hbl | htb2
      · obtain ⟨m, hm, rfl⟩ := List.mem_map.mp hbl
        have hlen : 0 < (batchSpec (prng 25) [] (Real.sqrt ρ)
            (Real.sqrt (1 - ρ)) P B m).length := by
          rw [length_batchSpec]
          by_cases hm2 : m ≤ 1
          · rw [if_pos hm2]; omega
          · rw [if_neg hm2]; omega
        exact List.length_pos.mp hlen
      · rcases htb with rfl | ⟨b2, rfl, hb1, hb2⟩
        · cases htb2
        · have hbb : b = b2 := List.mem_singleton.mp htb2
          subst hbb
          exact List.length_pos.mp (by omega)
    · intro rcd hr
      rw [hflat] at hr
      obtain ⟨s, _, rfl⟩ := List.mem_map.mp hr
      exact bindsInsert_empty _ rfl

/-- Witness for the amended C6 at a concrete input. -/
theorem claim_C6_witness :
    loadThresholds 3 [⟨1, fun _ => (50:ℝ)⟩] = [] ∧
    (emittedRecords (simulate_losses_monte_carlo (fun _ _ => (0:ℝ)) 3
      [⟨1, fun _ => (50:ℝ)⟩] 0 2 1 2).chan).map ScenarioRecord.S_ID =
      List.range' 1 2 ∧
    (∀ rcd ∈ emittedRecords (simulate_losses_monte_carlo (fun _ _ => (0:ℝ))
      3 [⟨1, fun _ => (50:ℝ)⟩] 0 2 1 2).chan, rcd.lossRatios = []) ∧
    data_consumer_binding (simulate_losses_monte_carlo (fun _ _ => (0:ℝ)) 3
      [⟨1, fun _ => (50:ℝ)⟩] 0 2 1 2).chan = [] :=
  claim_C6 (fun _ _ => 0) 3 [⟨1, fun _ => 50⟩] 0 2 1 2 (by norm_num) rfl

/-- Claim C7: when the write of the j-th received batch raises a storage
error, the open transaction is rolled back and the consumer stops: the
committed rows are exactly those of the j batches received before the
failure, whatever the failed batch held and whatever still travels on the
queue; no row of the failed batch is stored and earlier commits stay
intact. -/
theorem claim_C7 (err : ℕ → Bool) (bs : List (List ScenarioRecord))
    (rest : List (Option (List ScenarioRecord))) (j : ℕ)
    (hj : j < bs.length) (hfail : err j = true)
    (hok : ∀ i, i < j → err i = false) :
    data_consumer_faulty err 0 (bs.map some ++ rest) =
      (bs.take j).flatten := by
  have hfail0 : err (0 + j) = true := by rwa [Nat.zero_add]
  have hok0 : ∀ i, i < j → err (0 + i) = false := fun i hi => by
    rw [Nat.zero_add]
    exact hok i hi
  exact data_consumer_faulty_go err bs 0 j rest hj hfail0 hok0

/-- Witness for C7: a fault on the second received batch commits exactly
the first batch. -/
theorem claim_C7_witness :
    data_consumer_faulty (fun k => decide (k = 1)) 0
      (([[⟨1, 0, []⟩], [⟨2, 0, []⟩], [⟨3, 0, []⟩]] :
        List (List ScenarioRecord)).map some ++ [none]) =
      (([[⟨1, 0, []⟩], [⟨2, 0, []⟩], [⟨3, 0, []⟩]] :
        List (List ScenarioRecord)).take 1).flatten :=
  claim_C7 (fun k => decide (k = 1)) [[⟨1, 0, []⟩], [⟨2, 0, []⟩], [⟨3, 0, []⟩]]
    [none] 1 (by norm_num) (by decide)
    (fun i hi => by
      have h0 : i = 0 := by omega
      subst h0
      rfl)

/-- Claim C8: after all scenarios the producer pushes the non empty
trailing batch (when there is one) and then the sentinel as the last queue
item: the queue is a list of batches followed by one final none, every
pushed batch is non empty, and the consumer output is unchanged by
anything placed on the queue after the sentinel (it stops reading at the
sentinel). -/
theorem claim_C8 (prng : ℕ → ℕ → ℝ) (y : Int) (src : List YearRecord)
    (ρ : ℝ) (N P B : ℕ) (hB : 2 ≤ B) :
    ∃ bs : List (List ScenarioRecord),
      (simulate_losses_monte_carlo prng y src ρ N P B).chan =
        bs.map some ++ [none] ∧
      (∀ b ∈ bs, b ≠ []) ∧
      ∀ extra, data_consumer
          ((simulate_losses_monte_carlo prng y src ρ N P B).chan ++ extra) =
        data_consumer (simulate_losses_monte_carlo prng y src ρ N P B).chan := by
  obtain ⟨u, tb, hchan, htb⟩ := produceRun_shape (prng 25)
    (loadThresholds y src) (Real.sqrt ρ) (Real.sqrt (1 - ρ)) N P B hB
    (fun p hp => default_count_loadThresholds hp)
  rw [← simulate_eq prng y src ρ N P B] at hchan
  have hchan2 : (simulate_losses_monte_carlo prng y src ρ N P B).chan =
      (batchList (prng 25) (loadThresholds y src) (Real.sqrt ρ)
        (Real.sqrt (1 - ρ)) P B u ++ tb).map some ++ [none] := by
    rw [hchan]
    unfold chanSpec
    rw [List.map_append]
  refine ⟨batchList (prng 25) (loadThresholds y src) (Real.sqrt ρ)
    (Real.sqrt (1 - ρ)) P B u ++ tb, hchan2, ?_, ?_⟩
  · intro b hb
    rcases List.mem_append.mp hb with hbl | htb2
    · obtain ⟨m, hm, rfl⟩ := List.mem_map.mp hbl
      have hlen : 0 < (batchSpec (prng 25) (loadThresholds y src)
          (Real.sqrt ρ) (Real.sqrt (1 - ρ)) P B m).length := by
        rw [length_batchSpec]
        by_cases hm2 : m ≤ 1
        · rw [if_pos hm2]; omega
        · rw [if_neg hm2]; omega
      exact List.length_pos.mp hlen
    · rcases htb with rfl | ⟨b2, rfl, hb1, hb2⟩
      · cases htb2
      · have hbb : b = b2 := List.mem_singleton.mp htb2
        subst hbb
        exact List.length_pos.mp (by omega)
  · intro extra
    rw [hchan2, List.append_assoc, data_consumer_map_some,
      data_consumer_map_some]
    simp [data_consumer]

/-- Witness for C8 at a concrete input. -/
theorem claim_C8_witness :
    ∃ bs : List (List ScenarioRecord),
      (simulate_losses_monte_carlo (fun _ _ => (0:ℝ)) 1 [] 0 3 1 2).chan =
        bs.map some ++ [none] ∧
      (∀ b ∈ bs, b ≠ []) ∧
      ∀ extra, data_consumer
          ((simulate_losses_monte_carlo (fun _ _ => (0:ℝ)) 1 [] 0 3 1
            2).chan ++ extra) =
        data_consumer (simulate_losses_monte_carlo (fun _ _ => (0:ℝ)) 1 []
          0 3 1 2).chan :=
  claim_C8 (fun _ _ => 0) 1 [] 0 3 1 2 (by norm_num)

/-- Claim C10: when the threshold source holds several entries for the
requested year, only the first one in source order is parsed; every later
entry, indeed everything after the first match, is ignored. -/
theorem claim_C10 (y : Int) (src1 src2 src2b : List YearRecord)
    (r : YearRecord) (hr : r.Year = y) (hnone : ∀ e ∈ src1, e.Year ≠ y) :
    loadThresholds y (src1 ++ r :: src2) = parseRatings r ∧
    loadThresholds y (src1 ++ r :: src2) =
      loadThresholds y (src1 ++ r :: src2b) := by
  constructor
  · unfold loadThresholds
    rw [findYear_append y r hr src1 src2 hnone]
  · unfold loadThresholds
    rw [findYear_append y r hr src1 src2 hnone,
      findYear_append y r hr src1 src2b hnone]

/-- Witness for C10: a duplicate year 1 entry with different rates is
ignored in favour of the first entry. -/
theorem claim_C10_witness :
    loadThresholds 1 ([⟨2, fun _ => (7:ℝ)⟩] ++ ⟨1, fun _ => (5:ℝ)⟩ ::
        [⟨1, fun _ => (99:ℝ)⟩]) =
      parseRatings ⟨1, fun _ => (5:ℝ)⟩ ∧
    loadThresholds 1 ([⟨2, fun _ => (7:ℝ)⟩] ++ ⟨1, fun _ => (5:ℝ)⟩ ::
        [⟨1, fun _ => (99:ℝ)⟩]) =
      loadThresholds 1 ([⟨2, fun _ => (7:ℝ)⟩] ++ ⟨1, fun _ => (5:ℝ)⟩ :: []) :=
  claim_C10 1 [⟨2, fun _ => (7:ℝ)⟩] [⟨1, fun _ => (99:ℝ)⟩] []
    ⟨1, fun _ => (5:ℝ)⟩ rfl
    (fun e he => by
      have h0 : e = ⟨2, fun _ => (7:ℝ)⟩ := List.mem_singleton.mp he
      subst h0
      decide)

end CreditSim
